import Mathlib

/-!
Verification of the report-generation pipeline of `qtf_mcp/research.py`.

The Python module is shallowly embedded here:

* numpy float arrays become `List ℚ` (exact rational arithmetic stands in for
  IEEE floats; properties that hinge on float-only behaviour — signed zero,
  infinity, nan — are outside this embedding and are not settled by it);
* the nanosecond timestamps stored in the `DATE` arrays are only ever used
  through `datetime.fromtimestamp(..)` followed by `.month` / `strftime`, so a
  date is embedded directly as a calendar record `PyDate`;
* the dynamic dict bundle becomes the record `Bundle` (fields named after the
  dict keys), with the `_DS_FINANCE` sub-bundle as `FinBundle`;
* code that can raise a Python `IndexError` returns `Except PyErr _`; the
  writes to the shared `StringIO` become an explicit list of printed lines
  threaded through the section builders;
* Python `f"{x:.2f}"` / `f"{x:.2%}"` formatting becomes `fmtFixed` / `pyPct`
  (decimal rounding of the exact rational; Python rounds the underlying binary
  float half-to-even, which agrees on all inputs considered here).

External collaborators that are not part of the repository source are modelled
from the spec and marked `Modelled from the spec:` in their doc comments.
-/

/-- Error taxonomy for the embedded Python code: `indexError` models a raised
`IndexError` (out-of-bounds sequence access), `dataError` models the
`DataError` signal that the spec's error-handling design (§7) prescribes for
missing/insufficient data.  The source never signals `dataError`. -/
inductive PyErr where
  | indexError
  | dataError
deriving DecidableEq

/-- Calendar date, embedding of the `datetime.datetime` values obtained from
the nanosecond timestamps of the `DATE` arrays (only `year`/`month`/`day` are
ever consumed by the pipeline). -/
structure PyDate where
  year : Nat
  month : Nat
  day : Nat
deriving DecidableEq, Inhabited

/-- The `_DS_FINANCE` fundamentals sub-bundle: reporting dates plus the
per-field numeric sequences, index-aligned to `date`. -/
structure FinBundle where
  date : List PyDate
  mr : List ℚ
  np : List ℚ
  eps : List ℚ
  navps : List ℚ
  roe : List ℚ
deriving DecidableEq, Inhabited

/-- The input bundle `Dict[str, ndarray]` of `research.py`, with one record
field per dictionary key that the report pipeline reads. -/
structure Bundle where
  date : List PyDate
  close : List ℚ
  close2 : List ℚ
  tcap : List ℚ
  volume : List ℚ
  high : List ℚ
  low : List ℚ
  eps : List ℚ
  epsu : List ℚ
  roe : List ℚ
  sector : List String
  finance : FinBundle
deriving DecidableEq, Inhabited

/-- Embedding of the Python negative index access `xs[-i]` (for `i ≥ 1`):
out-of-range access raises `IndexError`. -/
def negGet {α : Type} [Inhabited α] (xs : List α) (i : Nat) : Except PyErr α :=
  if 1 ≤ i ∧ i ≤ xs.length then .ok (xs.getD (xs.length - i) default)
  else .error .indexError

/-- Total variant of `negGet`, used only where the surrounding code guarantees
`1 ≤ i ≤ xs.length` (the window sizes have already been filtered to be at most
the series length). -/
def negGetD {α : Type} [Inhabited α] (xs : List α) (i : Nat) : α :=
  xs.getD (xs.length - i) default

/-- Total positive-index access `xs[i]` (used only where the index is in
range); kept as its own definition so statements about it stay stable. -/
def getIdx {α : Type} [Inhabited α] (xs : List α) (i : Nat) : α :=
  xs.getD i default

/-- Embedding of Python list indexing `xs[i]` with an `Int` index as used in
the technical-indicator row loop, where every produced index is in range
(`-min(len, 31) < i ≤ -1`). -/
def pyIdx (xs : List ℚ) (i : Int) : ℚ :=
  xs.getD ((xs.length : Int) + i).toNat 0

/-- String variant of `pyIdx` for the pre-rendered date column. -/
def pyIdxS (xs : List String) (i : Int) : String :=
  xs.getD ((xs.length : Int) + i).toNat ""

/-- Embedding of the numpy slice `xs[-w:]`: the last `w` entries (the whole
list when `w` exceeds the length, exactly as in Python). -/
def lastSlice (w : Nat) (xs : List ℚ) : List ℚ :=
  xs.drop (xs.length - w)

/-- Embedding of `ndarray.mean()`: sum divided by length. -/
def npMean (xs : List ℚ) : ℚ := xs.sum / xs.length

/-- Embedding of `ndarray.max()` on a non-empty array. -/
def npMax : List ℚ → ℚ
  | [] => 0
  | x :: rest => rest.foldl max x

/-- Embedding of `ndarray.min()` on a non-empty array. -/
def npMin : List ℚ → ℚ
  | [] => 0
  | x :: rest => rest.foldl min x

/-- Little-endian base-10 digits, fuel-based so that it evaluates inside the
kernel (the first argument is the fuel). -/
def decDigitsAux : Nat → Nat → List Nat
  | _, 0 => []
  | 0, _ + 1 => []
  | fuel + 1, n + 1 => ((n + 1) % 10) :: decDigitsAux fuel ((n + 1) / 10)

/-- Little-endian base-10 digits of a natural number (agrees with
`Nat.digits 10`, see `decDigits_eq_digits`). -/
def decDigits (n : Nat) : List Nat := decDigitsAux n n

/-- Decimal rendering of a natural number. -/
def natToStr (n : Nat) : String :=
  if n = 0 then "0" else String.mk ((decDigits n).reverse.map Nat.digitChar)

/-- Fractional digit block of fixed-precision formatting: the decimal digits
of `fp`, left-padded with zeros to `prec` digits. -/
def fracChars (prec fp : Nat) : List Char :=
  List.replicate (prec - (decDigits fp).length) '0' ++
    (decDigits fp).reverse.map Nat.digitChar

/-- Scaled magnitude used by fixed-precision formatting: `|q| · 10^prec`
rounded (half away from zero) to the nearest integer, written out on the
numerator/denominator so that it evaluates inside the kernel:
`⌊|q|·10^prec + 1/2⌋ = (2·|num|·10^prec + den) / (2·den)`. -/
def fmtScaled (prec : Nat) (q : ℚ) : Nat :=
  let a : ℤ := (if q.num < 0 then -q.num else q.num) * ((10 ^ prec : Nat) : ℤ)
  ((2 * a + (q.den : ℤ)) / (2 * (q.den : ℤ))).toNat

/-- Integer part of the fixed-precision rendering of `q`. -/
def intPart (prec : Nat) (q : ℚ) : Nat := fmtScaled prec q / 10 ^ prec

/-- Fractional part (as an integer numerator) of the fixed-precision rendering
of `q`. -/
def fracPart (prec : Nat) (q : ℚ) : Nat := fmtScaled prec q % 10 ^ prec

/-- Character-level fixed-precision decimal rendering. -/
def fmtChars (prec : Nat) (q : ℚ) : List Char :=
  (if q.num < 0 then ['-'] else []) ++ (natToStr (intPart prec q)).data ++
    '.' :: fracChars prec (fracPart prec q)

/-- Embedding of Python `f"{q:.{prec}f}"`: fixed-precision decimal formatting
of the exact rational. -/
def fmtFixed (prec : Nat) (q : ℚ) : String := String.mk (fmtChars prec q)

/-- Embedding of Python `f"{q:.2%}"`: the value scaled by 100, rendered with 2
decimal places and a trailing percent sign. -/
def pyPct (q : ℚ) : String := fmtFixed 2 (q * 100) ++ "%"

/-- Number of characters after the last decimal point of a rendered number. -/
def fracPartLen (s : String) : Nat :=
  ((s.data.reverse).takeWhile (fun c => c != '.')).length

/-- Number of characters strictly between the last decimal point and the
trailing percent marker(s) of a rendered percentage. -/
def pctFracLen (s : String) : Nat :=
  (((s.data.reverse).dropWhile (fun c => c == '%')).takeWhile
    (fun c => c != '.')).length

/-- Zero-padded two-digit rendering used by `strftime` month/day fields. -/
def pad2 (n : Nat) : String := if n < 10 then "0" ++ natToStr n else natToStr n

/-- Embedding of `strftime("%Y-%m-%d")`. -/
def dateStr (d : PyDate) : String :=
  natToStr d.year ++ "-" ++ pad2 d.month ++ "-" ++ pad2 d.day

/-- Substring test helper: does the second list occur as a prefix of the
first argument list? -/
def strStartsL : List Char → List Char → Bool
  | [], _ => true
  | _ :: _, [] => false
  | a :: as, b :: bs => a == b && strStartsL as bs

/-- Substring test helper: does `ndl` occur contiguously inside the list? -/
def strSubL (ndl : List Char) : List Char → Bool
  | [] => ndl.isEmpty
  | c :: rest => strStartsL ndl (c :: rest) || strSubL ndl rest

/-- Embedding of the Python substring test `ndl in hay`. -/
def strHasSub (hay ndl : String) : Bool := strSubL ndl.data hay.data

/-- Source `filter_sector`: drop sector labels containing any noise keyword. -/
def filter_sector (sectors : List String) : List String :=
  let keywords := ["MSCI", "标普", "同花顺", "融资融券", "沪股通"]
  sectors.filter fun s => !(keywords.any fun k => strHasSub s k)

/-- Source `est_fin_ratio`: annualization ratio from the month of the most
recent fundamentals reporting date. -/
def est_fin_ratio (last_fin_date : PyDate) : ℚ :=
  if last_fin_date.month = 12 then 1
  else if last_fin_date.month = 9 then 0.75
  else if last_fin_date.month = 6 then 0.5
  else if last_fin_date.month = 3 then 0.25
  else 0

/-- Modelled from the spec: the external symbol resolution collaborator
(module `qtf_mcp.symbols`, not under src).  Per the spec the core calls it
with a single-element batch and expects exactly one `(symbol, name)` pair
back; the display name itself is external data, modelled as a tagged copy of
the code. -/
def symbol_with_name (symbols : List String) : List (String × String) :=
  symbols.map fun s => (s, "股票" ++ s)

/-- Trailing price-to-earnings value as computed on line 69 of the source:
`(CLOSE2[-1] / EPS[-1]) * fin_ratio`. -/
def peValue (close2 eps fin_ratio : ℚ) : ℚ := close2 / eps * fin_ratio

/-- Trailing price-to-book value as computed on line 70 of the source:
`CLOSE2[-1] / EPSU[-1] * fin_ratio`. -/
def pbValue (close2 epsu fin_ratio : ℚ) : ℚ := close2 / epsu * fin_ratio

/-- The lines printed by `build_basic_data` once all of its sequence accesses
have succeeded. -/
def basicLines (symbol : String) (data : Bundle) (dataDate lastFinDate : PyDate)
    (close2 eps epsu roe : ℚ) : List String :=
  let sn := (symbol_with_name [symbol]).getD 0 (symbol, "")
  let sector := String.intercalate " " (filter_sector data.sector)
  let fin_ratio := est_fin_ratio lastFinDate
  ["# 基本数据", "",
   "- 股票代码: " ++ sn.1,
   "- 股票名称: " ++ sn.2,
   "- 数据日期: " ++ dateStr dataDate,
   "- 行业概念: " ++ sector,
   "- 市盈率: " ++ fmtFixed 2 (peValue close2 eps fin_ratio),
   "- 市净率: " ++ fmtFixed 2 (pbValue close2 epsu fin_ratio),
   "- 净资产收益率: " ++ fmtFixed 2 roe,
   ""]

/-- Source `build_basic_data`: basic-facts section.  Reads the last element of
`DATE`, the fundamentals `DATE`, `CLOSE2`, `EPS`, `EPSU` and `ROE`; any of
those accesses on an empty sequence raises `IndexError`. -/
def build_basic_data (symbol : String) (data : Bundle) (buf : List String) :
    Except PyErr (List String) := do
  let dataDate ← negGet data.date 1
  let lastFinDate ← negGet data.finance.date 1
  let close2 ← negGet data.close2 1
  let eps ← negGet data.eps 1
  let epsu ← negGet data.epsu 1
  let roe ← negGet data.roe 1
  return buf ++ basicLines symbol data dataDate lastFinDate close2 eps epsu roe

/-- The canonical trading-window sizes of the source (line 82) and of the
spec (§4.1). -/
def canonicalWindows : List Nat := [5, 20, 60, 120, 240]

/-- Source line 82: `periods = list(filter(lambda n: n <= len(close), [5, 20,
60, 120, 240]))`. -/
def tradingPeriods (n : Nat) : List Nat := canonicalWindows.filter fun p => p ≤ n

/-- Spec-side definition of a trailing window, following the spec words: the
window consists of exactly the last `w` elements of the series. -/
def specLastWindow (w : Nat) (xs : List ℚ) : List ℚ := (xs.reverse.take w).reverse

/-- Source `build_trading_data`: trading-data section.  The `[-1]`/`[-2]`
accesses can raise `IndexError`; the per-window figures use the already
length-filtered `periods`. -/
def build_trading_data (data : Bundle) (buf : List String) :
    Except PyErr (List String) := do
  let close := data.close
  let tcap := data.tcap
  let volume := data.volume
  let high := data.high
  let low := data.low
  let periods := tradingPeriods close.length
  let buf := buf ++ ["# 交易数据", "", "## 价格"]
  let c1 ← negGet close 1
  let h1 ← negGet high 1
  let l1 ← negGet low 1
  let buf := buf ++
    ["- 当日: " ++ fmtFixed 3 c1 ++ " 最高: " ++ fmtFixed 3 h1 ++
      " 最低: " ++ fmtFixed 3 l1]
  let buf := buf ++ periods.map fun p =>
    "- " ++ natToStr p ++ "日均价: " ++ fmtFixed 3 (npMean (lastSlice p close)) ++
      " 最高: " ++ fmtFixed 3 (npMax (lastSlice p high)) ++
      " 最低: " ++ fmtFixed 3 (npMin (lastSlice p low))
  let buf := buf ++ ["", "## 振幅"]
  let l2 ← negGet low 2
  let buf := buf ++ ["- 当日: " ++ pyPct (h1 / l2 - 1)]
  let buf := buf ++ periods.map fun p =>
    "- " ++ natToStr p ++ "日振幅: " ++
      pyPct (npMax (lastSlice p high) / npMin (lastSlice p low) - 1)
  let buf := buf ++ ["", "## 涨跌幅"]
  let c2 ← negGet close 2
  let buf := buf ++ ["- 当日: " ++ pyPct (c1 / c2 - 1)]
  let buf := buf ++ periods.map fun p =>
    "- " ++ natToStr p ++ "日累计: " ++
      fmtFixed 2 ((c1 / negGetD close p - 1) * 100) ++ "%"
  let buf := buf ++ ["", "## 成交量(万手)"]
  let v1 ← negGet volume 1
  let buf := buf ++ ["- 当日: " ++ fmtFixed 2 (v1 / 1000000)]
  let buf := buf ++ periods.map fun p =>
    "- " ++ natToStr p ++ "日均量(万手): " ++
      fmtFixed 2 (npMean (lastSlice p volume) / 1000000)
  let buf := buf ++ ["", "## 换手率"]
  let tc1 ← negGet tcap 1
  let buf := buf ++ ["- 当日: " ++ pyPct (v1 / tc1)]
  let buf := buf ++ (periods.map fun p =>
    ["- " ++ natToStr p ++ "日均换手: " ++ pyPct (npMean (lastSlice p volume) / tc1),
     "- " ++ natToStr p ++ "日总换手: " ++ pyPct ((lastSlice p volume).sum / tc1)]).flatten
  return buf ++ [""]

/-- Modelled from the spec: exponential moving average with period `n`
(smoothing factor `2/(n+1)`, seeded with the first observation), the building
block of the external indicator library (`qtf.indicators` / `talib`, not under
src). -/
def EMA (n : Nat) (xs : List ℚ) : List ℚ :=
  let a : ℚ := 2 / ((n : ℚ) + 1)
  (xs.foldl (fun acc x =>
    match acc with
    | [] => [x]
    | e :: _ => (a * x + (1 - a) * e) :: acc) []).reverse

/-- Last-`n` in-order window of a series ending at index `t` (at most `n`
elements, fewer near the start of the series). -/
def windowEnd (n : Nat) (xs : List ℚ) (t : Nat) : List ℚ :=
  (xs.take (t + 1)).drop (t + 1 - n)

/-- Modelled from the spec: the raw stochastic value (position of the close
inside the `n`-period high/low range, scaled to 0..100, neutral 50 when the
range is degenerate). -/
def rsvAt (n : Nat) (close high low : List ℚ) (t : Nat) : ℚ :=
  let hh := npMax (windowEnd n high t)
  let ll := npMin (windowEnd n low t)
  if hh = ll then 50 else (close.getD t 0 - ll) / (hh - ll) * 100

/-- Exponential smoothing with factor `m` used by the stochastic oscillator:
`k_t = ((m-1)·k_{t-1} + x_t) / m`, seeded with the neutral value 50. -/
def kdjSmooth (m : ℚ) : ℚ → List ℚ → List ℚ
  | _, [] => []
  | prev, x :: rest =>
    let k := ((m - 1) * prev + x) / m
    k :: kdjSmooth m k rest

/-- Modelled from the spec: the stochastic oscillator `KDJ(close, high, low,
n, m)` of the external indicator library — `n`-period look-back, `m`-period
smoothing, K and D smoothed from the raw stochastic, `J = 3K − 2D`; all three
series full length. -/
def KDJ (close high low : List ℚ) (n m : Nat) : List ℚ × List ℚ × List ℚ :=
  let rsv := (List.range close.length).map (rsvAt n close high low)
  let K := kdjSmooth (m : ℚ) 50 rsv
  let D := kdjSmooth (m : ℚ) 50 K
  (K, D, K.zipWith (fun k d => 3 * k - 2 * d) D)

/-- Modelled from the spec: the convergence oscillator `MACD(close, fast,
slow, signal)` — difference of fast and slow EMAs, plus a `signal`-period EMA
of that difference; both series full length. -/
def MACD (close : List ℚ) (fast slow signal : Nat) : List ℚ × List ℚ :=
  let dif := List.zipWith (fun a b => a - b) (EMA fast close) (EMA slow close)
  (dif, EMA signal dif)

/-- Modelled from the spec: the relative-strength index at look-back `n` — the
ratio of recent average gains to average gains plus losses over the trailing
`n` one-step changes, scaled to 0..100, neutral 50 when the trailing movement
is zero or no change exists yet; full-length series. -/
def RSI (xs : List ℚ) (n : Nat) : List ℚ :=
  let ch := (xs.zip (xs.drop 1)).map fun ab => ab.2 - ab.1
  (List.range xs.length).map fun t =>
    if t = 0 then 50
    else
      let w := windowEnd n ch (t - 1)
      let g := (w.map fun c => max c 0).sum
      let l := (w.map fun c => max (-c) 0).sum
      if g + l = 0 then 50 else g / (g + l) * 100

/-- Modelled from the spec: banded moving average (`talib.BBANDS` with a
T3-type moving average) — a triple exponential moving average of the close as
the middle band, offset by twice a 5-period standard deviation (the
volatility measure, computed here with the exact-rational square root
`Rat.sqrt` standing in for the float square root). -/
def BBANDS (xs : List ℚ) : List ℚ × List ℚ × List ℚ :=
  let middle := EMA 5 (EMA 5 (EMA 5 xs))
  let dev := (List.range xs.length).map fun t =>
    let w := windowEnd 5 xs t
    let mu := npMean w
    Rat.sqrt (npMean (w.map fun x => (x - mu) ^ 2))
  (List.zipWith (fun m d => m + 2 * d) middle dev, middle,
    List.zipWith (fun m d => m - 2 * d) middle dev)

/-- The numeric columns of the technical-indicator table, in source order
(lines 146..159). -/
def techColumns (data : Bundle) : List (List ℚ) :=
  let kdj := KDJ data.close data.high data.low 9 3
  let macd := MACD data.close 12 26 9
  let bb := BBANDS data.close
  [kdj.1, kdj.2.1, kdj.2.2, macd.1, macd.2,
   RSI data.close 6, RSI data.close 12, RSI data.close 24,
   bb.1, bb.2.1, bb.2.2]

/-- Column headers of the technical table (12 columns, date included). -/
def techHeader : List String :=
  ["日期", "KDJ.K", "KDJ.D", "KDJ.J", "MACD DIF", "MACD DEA",
   "RSI(6)", "RSI(12)", "RSI(24)", "BBands Upper", "BBands Middle",
   "BBands Lower"]

/-- Embedding of the Python loop header `range(start, stop, -1)` for
`start ≥ stop`: the descending indices `start, start-1, …, stop+1`. -/
def pyRangeDown (start stop : Int) : List Int :=
  (List.range (start - stop).toNat).map fun k : Nat => start - (k : Int)

/-- One data row of the technical table (source lines 162..166): the date cell
followed by every numeric cell formatted with 2 decimal places, at negative
row index `i`. -/
def techRow (data : Bundle) (i : Int) : String :=
  "| " ++ pyIdxS (data.date.map dateStr) i ++ "|" ++
    String.intercalate " | " ((techColumns data).map fun c => fmtFixed 2 (pyIdx c i)) ++
    " |"

/-- The data rows of the technical table: the Python loop
`for i in range(-1, max(-len(date), -31), -1)`. -/
def techTableRows (data : Bundle) : List String :=
  (pyRangeDown (-1) (max (-(data.date.length : Int)) (-31))).map (techRow data)

/-- Source `build_technical_data`: the whole section is skipped when the close
series has fewer than 30 observations (line 127); otherwise the header, the
column-name row, the separator row and the data rows are printed. -/
def build_technical_data (data : Bundle) (buf : List String) :
    Except PyErr (List String) :=
  if data.close.length < 30 then .ok buf
  else
    .ok (buf ++ ["# 技术指标(最近30日)", "",
      "| " ++ String.intercalate " | " techHeader ++ " |",
      String.join (List.replicate techHeader.length "| --- ") ++ "|"] ++
      techTableRows data ++ [""])

/-- The five metric rows of the fundamentals table (source lines 177..183):
display label, field accessor, and the divisor used to scale the value. -/
def finFields : List (String × (FinBundle → List ℚ) × ℚ) :=
  [("主营收入(亿元)", FinBundle.mr, 10000),
   ("净利润(亿元)", FinBundle.np, 10000),
   ("每股收益", FinBundle.eps, 1),
   ("每股净资产", FinBundle.navps, 1),
   ("净资产收益率", FinBundle.roe, 1)]

/-- One collected fundamentals row at date index `i`: the year label
`strftime("%Y年度")` followed by the five scaled field values. -/
def finRowOf (fin : FinBundle) (i : Nat) : String × List ℚ :=
  (natToStr (getIdx fin.date i).year ++ "年度",
   finFields.map fun f => (f.2.1 fin).getD i 0 / f.2.2)

/-- The collection loop of `build_financial_data` (source lines 186..194):
walk the given date indices, skip a row when its month is not 12 or when 5
rows have already been collected. -/
def finRowsRec (fin : FinBundle) : List Nat → Nat → List (String × List ℚ)
  | [], _ => []
  | i :: rest, years =>
    if (getIdx fin.date i).month ≠ 12 ∨ 5 ≤ years then
      finRowsRec fin rest years
    else finRowOf fin i :: finRowsRec fin rest (years + 1)

/-- The index sequence of the Python loop `range(len(dates) - 1, 0, -1)`:
`len-1, len-2, …, 1` — index 0 (the oldest row) is never visited. -/
def finLoopIdx (m : Nat) : List Nat := (List.range' 1 (m - 1)).reverse

/-- The collected fiscal-year rows of the fundamentals table. -/
def finRows (fin : FinBundle) : List (String × List ℚ) :=
  finRowsRec fin (finLoopIdx fin.date.length) 0

/-- Source `build_financial_data`: fundamentals table.  The header and
separator lines are printed from `rows`; the metric lines then read
`rows[0]`, which raises `IndexError` when no fiscal-year row was collected
(modelled by the empty-`rows` match arm). -/
def build_financial_data (data : Bundle) (buf : List String) :
    Except PyErr (List String) :=
  let fin := data.finance
  let rows := finRows fin
  let buf := buf ++ ["# 财务数据", ""]
  let buf := buf ++
    ["| 指标 | " ++ String.intercalate " " (rows.map fun r => r.1 ++ " |")]
  let buf := buf ++ [String.join (List.replicate (rows.length + 1) "| --- ") ++ "|"]
  match rows with
  | [] => .error .indexError
  | r0 :: _ =>
    .ok (buf ++ ((List.range r0.2.length).map fun j =>
      "| " ++ (finFields.getD j ("", FinBundle.mr, 1)).1 ++ " | " ++
        String.intercalate " " (rows.map fun r => fmtFixed 2 (r.2.getD j 0) ++ " |")) ++
      [""])

/-- Source `build_stock_data`: the four sections composed in order into one
document (the `StringIO` buffer is the threaded line list, rendered at the
end with one newline per printed line). -/
def build_stock_data (symbol : String) (data : Bundle) : Except PyErr String := do
  let buf ← build_basic_data symbol data []
  let buf ← build_trading_data data buf
  let buf ← build_technical_data data buf
  let buf ← build_financial_data data buf
  return String.join (buf.map fun l => l ++ "\n")

/-- The mutable Python state visible to the pipeline: the output buffer and
the input bundle. -/
structure PyState where
  buf : List String
  data : Bundle
deriving DecidableEq

/-- State-passing form of `build_stock_data`, making the input bundle part of
the threaded state so that (non-)mutation of the bundle is expressible; the
`Except` plumbing is written as explicit matches. -/
def build_stock_data_st (symbol : String) (s : PyState) : Except PyErr PyState :=
  match build_basic_data symbol s.data s.buf with
  | .error e => .error e
  | .ok b1 =>
    match build_trading_data s.data b1 with
    | .error e => .error e
    | .ok b2 =>
      match build_technical_data s.data b2 with
      | .error e => .error e
      | .ok b3 =>
        match build_financial_data s.data b3 with
        | .error e => .error e
        | .ok b4 => .ok { buf := b4, data := s.data }

/-- Lines of a successfully built section (empty on a raised error). -/
def okLines : Except PyErr (List String) → List String
  | .ok l => l
  | .error _ => []

/-- A 2-day bundle used as a concrete evaluation point. -/
def twoDayBundle : Bundle :=
  { date := [⟨2024, 1, 2⟩, ⟨2024, 1, 3⟩]
    close := [3, 7/2], close2 := [3, 7/2], tcap := [100, 200]
    volume := [2000000, 3000000], high := [37/10, 18/5], low := [29/10, 33/10]
    eps := [1, 2], epsu := [2, 4], roe := [5, 6]
    sector := ["银行", "MSCI概念"]
    finance := { date := [⟨2023, 6, 30⟩, ⟨2023, 12, 31⟩]
                 mr := [50000, 60000], np := [20000, 30000]
                 eps := [1, 2], navps := [3, 4], roe := [5, 6] } }

/-- A 1-day bundle: every series has exactly one observation. -/
def oneDayBundle : Bundle :=
  { date := [⟨2024, 1, 2⟩]
    close := [10], close2 := [10], tcap := [100]
    volume := [1000000], high := [11], low := [9]
    eps := [1], epsu := [2], roe := [5]
    sector := []
    finance := { date := [⟨2023, 12, 31⟩]
                 mr := [50000], np := [20000], eps := [1], navps := [3], roe := [5] } }

/-- A bundle whose fundamentals history contains no December-dated row. -/
def noDecBundle : Bundle :=
  { date := [⟨2024, 1, 2⟩, ⟨2024, 1, 3⟩]
    close := [3, 7/2], close2 := [3, 7/2], tcap := [100, 200]
    volume := [2000000, 3000000], high := [37/10, 18/5], low := [29/10, 33/10]
    eps := [1, 2], epsu := [2, 4], roe := [5, 6]
    sector := []
    finance := { date := [⟨2022, 6, 30⟩, ⟨2023, 6, 30⟩]
                 mr := [50000, 60000], np := [20000, 30000]
                 eps := [1, 2], navps := [3, 4], roe := [5, 6] } }

/-- A fundamentals history whose only December row is the oldest entry. -/
def decJunFin : FinBundle :=
  { date := [⟨2020, 12, 31⟩, ⟨2021, 6, 30⟩]
    mr := [1, 2], np := [1, 2], eps := [1, 2], navps := [1, 2], roe := [1, 2] }

/-- A concrete six-element series for window-statistics evaluation. -/
def windowSample : List ℚ := [1, 2, 3, 4, 5, 6]

/-- A 20-observation bundle (below the 30-row indicator threshold). -/
def bundle20 : Bundle :=
  { date := List.replicate 20 ⟨2024, 1, 2⟩
    close := List.replicate 20 10, close2 := List.replicate 20 10
    tcap := List.replicate 20 100, volume := List.replicate 20 1000000
    high := List.replicate 20 11, low := List.replicate 20 9
    eps := List.replicate 20 1, epsu := List.replicate 20 2
    roe := List.replicate 20 5, sector := []
    finance := { date := [⟨2023, 12, 31⟩]
                 mr := [50000], np := [20000], eps := [1], navps := [3], roe := [5] } }

/-- A 30-observation bundle (exactly at the indicator threshold). -/
def bundle30 : Bundle :=
  { date := List.replicate 30 ⟨2024, 1, 2⟩
    close := List.replicate 30 10, close2 := List.replicate 30 10
    tcap := List.replicate 30 100, volume := List.replicate 30 1000000
    high := List.replicate 30 11, low := List.replicate 30 9
    eps := List.replicate 30 1, epsu := List.replicate 30 2
    roe := List.replicate 30 5, sector := []
    finance := { date := [⟨2023, 12, 31⟩]
                 mr := [50000], np := [20000], eps := [1], navps := [3], roe := [5] } }

/-- C5: the fiscal-ratio mapping is the exact table month 12 → 1, 9 → 0.75,
6 → 0.5, 3 → 0.25, every other month → 0 — equivalently the quarter fraction
`month/12` on quarter-end months and 0 elsewhere, with no interpolation. -/
theorem C5_fiscal_ratio_table (d : PyDate) :
    est_fin_ratio d =
      if d.month ∈ ([3, 6, 9, 12] : List Nat) then (d.month : ℚ) / 12 else 0 := by
  by_cases h12 : d.month = 12 <;> by_cases h9 : d.month = 9 <;>
    by_cases h6 : d.month = 6 <;> by_cases h3 : d.month = 3 <;>
    simp_all [est_fin_ratio] <;> norm_num

/-- C7: the basic-facts section prints the trailing price-to-earnings value
`CLOSE2[-1] × fin_ratio ÷ EPS[-1]` and the trailing price-to-book value
`CLOSE2[-1] × fin_ratio ÷ EPSU[-1]` (the source computes them as
`(close2/eps)·r` and `(close2/epsu)·r`, which are the same rationals). -/
theorem C7_pe_pb_formula (symbol : String) (data : Bundle)
    (dataDate lastFinDate : PyDate) (close2 eps epsu roe : ℚ) :
    peValue close2 eps (est_fin_ratio lastFinDate) =
        close2 * est_fin_ratio lastFinDate / eps ∧
    pbValue close2 epsu (est_fin_ratio lastFinDate) =
        close2 * est_fin_ratio lastFinDate / epsu ∧
    "- 市盈率: " ++ fmtFixed 2 (close2 * est_fin_ratio lastFinDate / eps) ∈
        basicLines symbol data dataDate lastFinDate close2 eps epsu roe ∧
    "- 市净率: " ++ fmtFixed 2 (close2 * est_fin_ratio lastFinDate / epsu) ∈
        basicLines symbol data dataDate lastFinDate close2 eps epsu roe := by
  have hpe : peValue close2 eps (est_fin_ratio lastFinDate) =
      close2 * est_fin_ratio lastFinDate / eps := by
    rw [peValue, div_mul_eq_mul_div]
  have hpb : pbValue close2 epsu (est_fin_ratio lastFinDate) =
      close2 * est_fin_ratio lastFinDate / epsu := by
    rw [pbValue, div_mul_eq_mul_div]
  refine ⟨hpe, hpb, ?_, ?_⟩ <;> simp [basicLines, ← hpe, ← hpb]

/-- C6: on a single-observation price series the single-step change and daily
amplitude figures raise an `IndexError` (the `low[-2]` access), not the
`DataError` the spec prescribes. -/
theorem C6_short_series_index_fault :
    build_trading_data oneDayBundle [] = .error .indexError ∧
    PyErr.indexError ≠ PyErr.dataError :=
  ⟨rfl, by decide⟩

/-- C3: on a fundamentals history with zero December-dated rows the
fundamentals builder raises `IndexError` (the unconditional `rows[0]` read)
instead of omitting the section. -/
theorem C3_zero_fiscal_rows_fault :
    build_financial_data noDecBundle [] = .error .indexError := rfl

/-- Helper: the collection loop of the fundamentals table equals taking the
first `5 - years` December-dated indices in walk order. -/
theorem finRowsRec_eq_take_filter (fin : FinBundle) (idxs : List Nat) (years : Nat) :
    finRowsRec fin idxs years =
      ((idxs.filter fun i => (getIdx fin.date i).month == 12).take (5 - years)).map
        (finRowOf fin) := by
  induction idxs generalizing years with
  | nil => simp [finRowsRec]
  | cons i rest ih =>
    by_cases hm : (getIdx fin.date i).month = 12
    · have hfil : ((i :: rest).filter fun j => (getIdx fin.date j).month == 12) =
          i :: (rest.filter fun j => (getIdx fin.date j).month == 12) := by
        simp [List.filter_cons, hm]
      by_cases hy : 5 ≤ years
      · have h50 : 5 - years = 0 := by omega
        rw [finRowsRec, if_pos (Or.inr hy), ih years, h50, hfil]
        simp
      · have hsub : 5 - years = (5 - (years + 1)) + 1 := by omega
        have hcond : ¬ (¬ (getIdx fin.date i).month = 12 ∨ 5 ≤ years) := by
          simp [hm, hy]
        rw [finRowsRec, if_neg hcond, hfil, hsub, List.take_succ_cons,
          List.map_cons, ih (years + 1)]
    · have hfil : ((i :: rest).filter fun j => (getIdx fin.date j).month == 12) =
          rest.filter fun j => (getIdx fin.date j).month == 12 := by
        simp [List.filter_cons, hm]
      rw [finRowsRec, if_pos (Or.inl hm), ih years, hfil]

/-- C4 (amended): the collection walk covers date indices `M-1` down to `1`
only — the oldest row (index 0) is never examined — and the collected
year-columns are exactly the first up-to-5 December-dated rows of that
walk. -/
theorem C4_fiscal_rows_walk (fin : FinBundle) :
    finRows fin =
      (((finLoopIdx fin.date.length).filter fun i =>
          (getIdx fin.date i).month == 12).take 5).map (finRowOf fin) := by
  rw [finRows, finRowsRec_eq_take_filter]

/-- C4 counterexample: a two-row history whose only December row is the
oldest entry.  The full history contains one December row, so the claim
demands `min 5 1 = 1` collected rows, but the code collects none. -/
theorem C4_oldest_row_missed :
    finRows decJunFin = [] ∧
    (decJunFin.date.filter fun d => d.month == 12).length = 1 ∧
    ¬ ((finRows decJunFin).length =
        min 5 ((decJunFin.date.filter fun d => d.month == 12).length)) := by
  decide

/-- Helper: the code slice `xs[-w:]` is the spec's last-`w` window. -/
theorem lastSlice_eq_specLastWindow (w : Nat) (xs : List ℚ) :
    lastSlice w xs = specLastWindow w xs := by
  have h := List.rtake_eq_reverse_take_reverse (l := xs) (n := w)
  simpa [List.rtake, lastSlice, specLastWindow] using h

/-- C1: a `w`-day figure is reported iff `w` is a canonical window size with
`w ≤ N`, and the reported mean/max/min are those of exactly the last `w`
elements of the series. -/
theorem C1_window_stats (xs : List ℚ) (w : Nat) (hw : w ∈ canonicalWindows) :
    (w ∈ tradingPeriods xs.length ↔ w ≤ xs.length) ∧
    (w ≤ xs.length →
      npMean (lastSlice w xs) = (specLastWindow w xs).sum / (w : ℚ) ∧
      npMax (lastSlice w xs) = npMax (specLastWindow w xs) ∧
      npMin (lastSlice w xs) = npMin (specLastWindow w xs)) := by
  constructor
  · simp [tradingPeriods, List.mem_filter, hw]
  · intro hle
    have hs := lastSlice_eq_specLastWindow w xs
    have hlen : (specLastWindow w xs).length = w := by
      simp [specLastWindow]
      omega
    refine ⟨?_, by rw [hs], by rw [hs]⟩
    rw [npMean, hs, hlen]

/-- Witness for C1 on a concrete six-element series with window 5. -/
theorem C1_window_stats_witness :
    5 ∈ canonicalWindows ∧
    (5 ∈ tradingPeriods windowSample.length ↔ 5 ≤ windowSample.length) ∧
    (npMean (lastSlice 5 windowSample) = (specLastWindow 5 windowSample).sum / (5 : ℚ) ∧
     npMax (lastSlice 5 windowSample) = npMax (specLastWindow 5 windowSample) ∧
     npMin (lastSlice 5 windowSample) = npMin (specLastWindow 5 windowSample)) :=
  ⟨by decide, (C1_window_stats windowSample 5 (by decide)).1,
   (C1_window_stats windowSample 5 (by decide)).2 (by decide)⟩

/-- C9: the pipeline never mutates its input bundle — however the composed
report generation ends (error or success), the bundle component of the
threaded state is the input bundle. -/
theorem C9_pipeline_preserves_bundle (symbol : String) (s : PyState) :
    (build_stock_data_st symbol s).map PyState.data =
      (build_stock_data_st symbol s).map fun _ => s.data := by
  unfold build_stock_data_st
  cases build_basic_data symbol s.data s.buf with
  | error e => rfl
  | ok b1 =>
    dsimp only
    cases build_trading_data s.data b1 with
    | error e => rfl
    | ok b2 =>
      dsimp only
      cases build_technical_data s.data b2 with
      | error e => rfl
      | ok b3 =>
        dsimp only
        cases build_financial_data s.data b3 with
        | error e => rfl
        | ok b4 => rfl

/-- Helper: the length of a descending Python range. -/
theorem length_pyRangeDown (start stop : Int) :
    (pyRangeDown start stop).length = (start - stop).toNat := by
  unfold pyRangeDown
  rw [List.length_map, List.length_range]

/-- C2 (amended): the technical-indicator section is entirely absent when the
close series has fewer than 30 observations, and otherwise its table has
`min(N−1, 30)` data rows — 30 rows for `N ≥ 31` but only 29 rows at exactly
`N = 30`. -/
theorem C2_technical_rows (data : Bundle)
    (hlen : data.date.length = data.close.length) :
    (techTableRows data).length = min (data.close.length - 1) 30 ∧
    (∀ k, k < (techTableRows data).length →
      (techTableRows data)[k]? = some (techRow data (-1 - (k : Int)))) ∧
    (data.close.length < 30 → ∀ buf, build_technical_data data buf = .ok buf) := by
  refine ⟨?_, ?_, ?_⟩
  · unfold techTableRows
    rw [List.length_map, length_pyRangeDown, hlen]
    omega
  · intro k hk
    unfold techTableRows at hk ⊢
    rw [List.length_map, length_pyRangeDown] at hk
    rw [List.getElem?_map]
    unfold pyRangeDown
    rw [List.getElem?_map, List.getElem?_range hk]
    rfl
  · intro h buf
    simp [build_technical_data, h]

/-- Witness for C2 on a concrete 20-observation bundle. -/
theorem C2_technical_rows_witness :
    bundle20.date.length = bundle20.close.length ∧
    (techTableRows bundle20).length = min (bundle20.close.length - 1) 30 ∧
    (techTableRows bundle20)[0]? = some (techRow bundle20 (-1)) ∧
    bundle20.close.length < 30 ∧
    build_technical_data bundle20 [] = .ok [] :=
  ⟨by decide, (C2_technical_rows bundle20 (by decide)).1,
   by
    have h := (C2_technical_rows bundle20 (by decide)).2.1 0
      (by rw [(C2_technical_rows bundle20 (by decide)).1]; decide)
    simpa using h,
   by decide,
   (C2_technical_rows bundle20 (by decide)).2.2 (by decide) []⟩

/-- C2 counterexample: at exactly 30 observations the section is rendered but
its table has 29 data rows, not the `min(30, N) = 30` the claim states. -/
theorem C2_thirty_day_off_by_one :
    30 ≤ bundle30.close.length ∧
    (techTableRows bundle30).length = 29 ∧
    min 30 bundle30.close.length = 30 := by
  refine ⟨by decide, ?_, by decide⟩
  unfold techTableRows
  rw [List.length_map, length_pyRangeDown]
  decide

/-- Helper: the fuel-based digit extractor agrees with `Nat.digits 10` when
given enough fuel. -/
theorem decDigitsAux_eq_digits (fuel n : Nat) (h : n ≤ fuel) :
    decDigitsAux fuel n = Nat.digits 10 n := by
  induction fuel generalizing n with
  | zero =>
    interval_cases n
    simp [decDigitsAux]
  | succ f ih =>
    cases n with
    | zero => simp [decDigitsAux]
    | succ m =>
      rw [decDigitsAux]
      rw [Nat.digits_def' (by norm_num : (1 : ℕ) < 10) (Nat.succ_pos m)]
      congr 1
      apply ih
      have := Nat.div_lt_self (Nat.succ_pos m) (by norm_num : 1 < 10)
      omega

/-- Helper: `decDigits` is `Nat.digits 10`. -/
theorem decDigits_eq_digits (n : Nat) : decDigits n = Nat.digits 10 n :=
  decDigitsAux_eq_digits n n le_rfl

/-- Helper: every extracted digit is below the base. -/
theorem mem_decDigits_lt (n d : Nat) (hd : d ∈ decDigits n) : d < 10 := by
  rw [decDigits_eq_digits] at hd
  exact Nat.digits_lt_base (by norm_num) hd

/-- Helper: a number below `10^p` has at most `p` digits. -/
theorem decDigits_len_le (p n : Nat) (h : n < 10 ^ p) : (decDigits n).length ≤ p := by
  rw [decDigits_eq_digits]
  rcases Nat.eq_zero_or_pos n with h0 | h0
  · subst h0; simp
  · rw [Nat.digits_len 10 n (by norm_num) (by omega)]
    have hlog : Nat.log 10 n < p := Nat.log_lt_of_lt_pow (by omega) h
    omega

/-- Helper: no fractional-block character is a decimal point or a percent
marker. -/
theorem fracChars_ne_dot (p fp : Nat) : ∀ c ∈ fracChars p fp, c ≠ '.' ∧ c ≠ '%' := by
  intro c hc
  unfold fracChars at hc
  rcases List.mem_append.1 hc with h | h
  · have h0 : c = '0' := List.eq_of_mem_replicate h
    subst h0
    exact ⟨by decide, by decide⟩
  · rcases List.mem_map.1 h with ⟨d, hd, rfl⟩
    have hd10 : d < 10 := mem_decDigits_lt _ _ (List.mem_reverse.1 hd)
    interval_cases d <;> exact ⟨by decide, by decide⟩

/-- Helper: the fractional block has exactly `prec` characters. -/
theorem length_fracChars (p fp : Nat) (h : fp < 10 ^ p) :
    (fracChars p fp).length = p := by
  have hle := decDigits_len_le p fp h
  simp only [fracChars, List.length_append, List.length_replicate, List.length_map,
    List.length_reverse]
  omega

/-- Helper: the fractional numerator is below `10^prec`. -/
theorem fracPart_lt (p : Nat) (q : ℚ) : fracPart p q < 10 ^ p :=
  Nat.mod_lt _ (pow_pos (by norm_num) p)

/-- Helper: taking while not-dot across a dot-free prefix stops exactly at
the dot. -/
theorem takeWhile_append_dot (l₁ l₂ : List Char) (pr : Char → Bool)
    (h : ∀ c ∈ l₁, pr c = true) (hdot : pr '.' = false) :
    ((l₁ ++ '.' :: l₂).takeWhile pr).length = l₁.length := by
  induction l₁ with
  | nil => simp [List.takeWhile_cons, hdot]
  | cons a as ih =>
    have ha : pr a = true := h a (by simp)
    simp only [List.cons_append, List.takeWhile_cons, ha, if_true, List.length_cons]
    rw [ih (fun c hc => h c (by simp [hc]))]

/-- Helper: the reversed rendering decomposes as reversed fraction block,
dot, rest. -/
theorem fmtChars_reverse (p : Nat) (q : ℚ) :
    (fmtChars p q).reverse =
      (fracChars p (fracPart p q)).reverse ++ '.' ::
        ((natToStr (intPart p q)).data.reverse ++
          (if q.num < 0 then ['-'] else []).reverse) := by
  simp [fmtChars, List.reverse_append, List.reverse_cons, List.append_assoc]

/-- Helper: every fixed-precision rendering has exactly `prec` characters
after its decimal point. -/
theorem fracPartLen_fmtFixed (p : Nat) (q : ℚ) : fracPartLen (fmtFixed p q) = p := by
  show ((fmtChars p q).reverse.takeWhile (fun c => c != '.')).length = p
  rw [fmtChars_reverse, takeWhile_append_dot _ _ _ ?_ (by decide),
    List.length_reverse, length_fracChars _ _ (fracPart_lt p q)]
  intro c hc
  have := (fracChars_ne_dot p (fracPart p q) c (List.mem_reverse.1 hc)).1
  simpa using this

/-- Helper: dropping percent markers leaves a list alone when its head is not
a percent marker. -/
theorem dropWhile_pct (F rest : List Char) (hne : F ≠ [])
    (hF : ∀ c ∈ F, c ≠ '%') :
    (F.reverse ++ '.' :: rest).dropWhile (fun c => c == '%') =
      F.reverse ++ '.' :: rest := by
  cases hFr : F.reverse with
  | nil =>
    exact absurd (by simpa using congrArg List.reverse hFr) hne
  | cons c cs =>
    have hc : c ∈ F := by
      have hmem : c ∈ F.reverse := by rw [hFr]; simp
      simpa using hmem
    have hcb : (c == '%') = false := by simp [hF c hc]
    simp [List.dropWhile_cons, hcb]

/-- Helper: the rendered data of a percentage is the fixed rendering plus a
percent marker. -/
theorem pyPct_data (q : ℚ) : (pyPct q).data = fmtChars 2 (q * 100) ++ ['%'] := rfl

/-- Helper: a percentage rendering has exactly 2 characters between its
decimal point and the trailing percent marker. -/
theorem pctFracLen_pyPct (q : ℚ) : pctFracLen (pyPct q) = 2 := by
  have hF := fracChars_ne_dot 2 (fracPart 2 (q * 100))
  have hlenF : (fracChars 2 (fracPart 2 (q * 100))).length = 2 :=
    length_fracChars _ _ (fracPart_lt 2 (q * 100))
  have hne : fracChars 2 (fracPart 2 (q * 100)) ≠ [] := by
    intro h0
    rw [h0] at hlenF
    simp at hlenF
  show (((pyPct q).data.reverse.dropWhile (fun c => c == '%')).takeWhile
      (fun c => c != '.')).length = 2
  rw [pyPct_data, List.reverse_append]
  have hsing : (['%'] : List Char).reverse = ['%'] := rfl
  rw [hsing, List.singleton_append, List.dropWhile_cons]
  simp only [beq_self_eq_true, if_true, ite_true]
  rw [fmtChars_reverse, dropWhile_pct _ _ hne (fun c hc => (hF c hc).2),
    takeWhile_append_dot _ _ _ ?_ (by decide), List.length_reverse, hlenF]
  intro c hc
  have := (hF c (List.mem_reverse.1 hc)).1
  simpa using this

/-- Helper: a percentage rendering ends with the percent marker. -/
theorem pyPct_getLast (q : ℚ) : (pyPct q).data.getLast? = some '%' := by
  rw [pyPct_data]
  exact List.getLast?_concat _

/-- C8 (amended): the current and windowed price figures of the trading
section are rendered by `fmtFixed 3` with exactly 3 decimal places; every
other absolute figure is rendered by `fmtFixed 2` with exactly 2 decimal
places; every percentage is rendered with 2 decimal places and a trailing
percent marker. -/
theorem C8_format_precisions (q : ℚ) :
    fracPartLen (fmtFixed 3 q) = 3 ∧ fracPartLen (fmtFixed 2 q) = 2 ∧
    (pyPct q).data.getLast? = some '%' ∧ pctFracLen (pyPct q) = 2 :=
  ⟨fracPartLen_fmtFixed 3 q, fracPartLen_fmtFixed 2 q, pyPct_getLast q,
   pctFracLen_pyPct q⟩

/-- C8 counterexample: on a concrete bundle the trading section prints the
current price as `3.500` — three decimal places, not the claimed two. -/
theorem C8_price_three_decimals :
    "- 当日: 3.500 最高: 3.600 最低: 3.300" ∈
      okLines (build_trading_data twoDayBundle []) ∧
    "- 当日: 3.500 最高: 3.600 最低: 3.300" =
      "- 当日: " ++ fmtFixed 3 ((7 : ℚ)/2) ++ " 最高: " ++ fmtFixed 3 ((18 : ℚ)/5) ++
        " 最低: " ++ fmtFixed 3 ((33 : ℚ)/10) ∧
    fracPartLen "3.500" = 3 ∧ fracPartLen "3.500" ≠ 2 := by
  decide!
